import Mathlib

/-!
# Verification of the chatbot3server backend (src/server.js)

A shallow embedding of the chat server's data model and request handlers:
the message/role data model, the in-memory chat store (a JS `Map` modelled
as an insertion-ordered association list), the pure history trimmer
`trimHistory`, and the three mutating HTTP handlers (`POST /api/chat`,
`DELETE /api/chat/:chatId`) with the upstream completion call modelled as
an oracle parameter.
-/

/-- Message roles, as the string constants "system" | "user" | "assistant"
used in server.js. -/
inductive Role where
  | system
  | user
  | assistant
deriving DecidableEq, Repr

/-- A chat message: `{ role, content }` objects in server.js. -/
structure Message where
  role : Role
  content : String
deriving DecidableEq, Repr

/-- `const SYSTEM_PROMPT = "אתה צ'אטבוט עוזר, ענה בקצרה וברורה.";` -/
def SYSTEM_PROMPT : String := "אתה צ'אטבוט עוזר, ענה בקצרה וברורה."

/-- `const MAX_TURNS = 20;` -/
def MAX_TURNS : Nat := 20

/-- The system-prompt message that seeds every new chat
(`{ role: "system", content: SYSTEM_PROMPT }`). -/
def systemMsg : Message := ⟨Role.system, SYSTEM_PROMPT⟩

/-- The Boolean predicate `m.role !== "system"` used by `trimHistory`'s filter. -/
def nonSystem (m : Message) : Bool := decide (m.role ≠ Role.system)

/-- server.js lines 57–65:
```
function trimHistory(messages) {
  const system = messages[0]?.role === "system" ? [messages[0]] : [];
  const rest = messages.filter((m) => m.role !== "system");
  const maxMessages = MAX_TURNS * 2;
  const trimmedRest = rest.slice(-maxMessages);
  return [...system, ...trimmedRest];
}
```
`rest.slice(-n)` is the suffix of the last `n` elements (the whole list
when shorter), i.e. `rest.drop (rest.length - n)` with truncated
subtraction. -/
def trimHistory (messages : List Message) : List Message :=
  let system : List Message :=
    match messages.head? with
    | some m => if m.role = Role.system then [m] else []
    | none => []
  let rest := messages.filter nonSystem
  let maxMessages := MAX_TURNS * 2
  let trimmedRest := rest.drop (rest.length - maxMessages)
  system ++ trimmedRest

/-- A JavaScript value as it can appear in a parsed JSON request-body field:
absent (`undefined` after destructuring), `null`, a boolean, a number
(integral; floats do not matter for the checks performed), or a string. -/
inductive JsField where
  | undef
  | nullv
  | boolv (b : Bool)
  | numberv (n : Int)
  | strv (s : String)
deriving DecidableEq, Repr

/-- JavaScript truthiness of a request-body field, as tested by
`!chatId` / `!message`: `undefined`, `null`, `false`, `0` and `""` are
falsy. -/
def JsField.truthy : JsField → Bool
  | .undef => false
  | .nullv => false
  | .boolv b => b
  | .numberv n => decide (n ≠ 0)
  | .strv s => decide (s ≠ "")

/-- `typeof x === "string"`. -/
def JsField.isString : JsField → Bool
  | .strv _ => true
  | _ => false

/-- The string payload of a string-valued field. -/
def JsField.str : JsField → String
  | .strv s => s
  | _ => ""

/-- The in-memory chat store `chats = Map<chatId, messages[]>`, modelled as
an insertion-ordered association list with unique keys, matching a JS
`Map`'s iteration order. -/
abbrev Store := List (String × List Message)

/-- `chats.has(chatId)`. -/
def Store.hasKey (st : Store) (k : String) : Bool :=
  st.any (fun p => decide (p.1 = k))

/-- `chats.get(chatId)`: `undefined` (`none`) when absent. -/
def Store.lookup (st : Store) (k : String) : Option (List Message) :=
  (st.find? (fun p => decide (p.1 = k))).map (·.2)

/-- `chats.set(chatId, v)`: replaces the value in place when the key is
present (JS `Map.set` keeps the original insertion position), otherwise
appends the new entry at the end. -/
def Store.setKey (st : Store) (k : String) (v : List Message) : Store :=
  if st.hasKey k then
    st.map (fun p => if p.1 = k then (k, v) else p)
  else
    st ++ [(k, v)]

/-- `chats.delete(chatId)`. -/
def Store.delKey (st : Store) (k : String) : Store :=
  st.filter (fun p => decide (p.1 ≠ k))

/-- `Array.from(chats.keys())`, as served by `GET /api/chats`. -/
def Store.chatIds (st : Store) : List String := st.map (·.1)

/-- server.js lines 50–55:
```
function getOrCreateChat(chatId) {
  if (!chats.has(chatId)) {
    chats.set(chatId, [{ role: "system", content: SYSTEM_PROMPT }]);
  }
  return chats.get(chatId);
}
```
Returns the possibly-extended store together with the chat's history. -/
def getOrCreateChat (st : Store) (chatId : String) : Store × List Message :=
  let st' := if st.hasKey chatId then st else st.setKey chatId [systemMsg]
  (st', (st'.lookup chatId).getD [])

/-- An HTTP response as produced by the handlers: a status code and a JSON
body (the handlers only ever emit these body shapes). -/
inductive RespBody where
  | reply (s : String)
  | error (s : String)
  | okTrue
deriving DecidableEq, Repr

structure Response where
  status : Nat
  body : RespBody
deriving DecidableEq, Repr

/-- Outcome of `getOpenAI().chat.completions.create(...)`, the single
suspension point of the POST handler: either the awaited promise rejects
(`fail`, caught by the surrounding try/catch), or it resolves and
`completion?.choices?.[0]?.message?.content` is the given optional
string (`none` models an absent/null content). -/
inductive UpstreamOutcome where
  | fail
  | success (content : Option String)
deriving DecidableEq, Repr

/-- The fallback reply `"לא הצלחתי לנסח תשובה."` substituted for an
empty/absent upstream reply. -/
def FALLBACK : String := "לא הצלחתי לנסח תשובה."

/-- JavaScript `String.prototype.trim()`: strips whitespace from both ends
of the string. -/
def trimString (s : String) : String :=
  ⟨((s.data.dropWhile Char.isWhitespace).reverse.dropWhile
      Char.isWhitespace).reverse⟩

/-- `completion?.choices?.[0]?.message?.content?.trim() || FALLBACK`:
optional chaining yields `undefined` when the content is absent, and
`|| FALLBACK` replaces any falsy result (`undefined` or the empty string
left after trimming). -/
def computeReply (content : Option String) : String :=
  match content with
  | none => FALLBACK
  | some c => if trimString c = "" then FALLBACK else trimString c

/-- server.js lines 95–132, the `POST /api/chat` handler. The request body
fields arrive as `JsField`s; the upstream call's outcome is the `u`
parameter. Returns the store as left behind by the handler and the HTTP
response sent.
```
const { chatId, message } = req.body || {};
if (!chatId || typeof chatId !== "string") return 400 "chatId is required";
if (!message || typeof message !== "string") return 400 "message is required";
const history = getOrCreateChat(chatId);
history.push({ role: "user", content: message });
chats.set(chatId, trimHistory(history));
const completion = await ... // may throw -> catch -> 500 "Server error"
const reply = completion?...?.content?.trim() || FALLBACK;
const updated = chats.get(chatId);
updated.push({ role: "assistant", content: reply });
chats.set(chatId, trimHistory(updated));
res.json({ reply });
```
-/
def postChat (st : Store) (chatId message : JsField) (u : UpstreamOutcome) :
    Store × Response :=
  if ¬ chatId.truthy ∨ ¬ chatId.isString then
    (st, ⟨400, .error "chatId is required"⟩)
  else if ¬ message.truthy ∨ ¬ message.isString then
    (st, ⟨400, .error "message is required"⟩)
  else
    let cid := chatId.str
    let gc := getOrCreateChat st cid
    let st1 := gc.1
    let history := gc.2
    let history1 := history ++ [⟨Role.user, message.str⟩]
    let st2 := st1.setKey cid (trimHistory history1)
    match u with
    | .fail => (st2, ⟨500, .error "Server error"⟩)
    | .success content =>
      let reply := computeReply content
      let updated := (st2.lookup cid).getD []
      let updated1 := updated ++ [⟨Role.assistant, reply⟩]
      let st3 := st2.setKey cid (trimHistory updated1)
      (st3, ⟨200, .reply reply⟩)

/-- server.js lines 70–83, the `DELETE /api/chat/:chatId` handler. The
path parameter is always a string; `!chatId` is its emptiness test. -/
def deleteChat (st : Store) (chatId : String) : Store × Response :=
  if chatId = "" then
    (st, ⟨400, .error "chatId is required"⟩)
  else if ¬ st.hasKey chatId then
    (st, ⟨404, .error "Chat not found"⟩)
  else
    (st.delKey chatId, ⟨200, .okTrue⟩)

/-- One observable transition of the chat store: a completed request of
one of the two mutating handlers (the list/health/static endpoints do not
touch the store). -/
inductive Step : Store → Store → Prop
  | post (st : Store) (chatId message : JsField) (u : UpstreamOutcome) :
      Step st (postChat st chatId message u).1
  | del (st : Store) (chatId : String) :
      Step st (deleteChat st chatId).1

/-- Stores reachable from the initial empty map by completed requests. -/
inductive Reachable : Store → Prop
  | init : Reachable []
  | step {st st' : Store} : Reachable st → Step st st' → Reachable st'

/-- A well-formed stored history: it begins with the system-prompt message,
everything after position 0 is non-system, and at most `MAX_TURNS * 2`
non-system messages are held. -/
def GoodHist (l : List Message) : Prop :=
  l.head? = some systemMsg ∧
  (l.drop 1).all nonSystem = true ∧
  (l.filter nonSystem).length ≤ MAX_TURNS * 2

/-- The store invariant: every stored chat history is well formed. -/
def StoreInv (st : Store) : Prop := ∀ p ∈ st, GoodHist p.2

/-! ## Basic facts about `trimHistory` -/

/-- `trimHistory` written with `List.rtake` (`slice(-n)`). -/
lemma trimHistory_eq (msgs : List Message) :
    trimHistory msgs =
      (match msgs.head? with
       | some m => if m.role = Role.system then [m] else []
       | none => []) ++ (msgs.filter nonSystem).rtake (MAX_TURNS * 2) := by
  unfold trimHistory List.rtake
  rfl

lemma trimHistory_head_system {msgs : List Message} {m : Message}
    (h : msgs.head? = some m) (hs : m.role = Role.system) :
    trimHistory msgs = m :: (msgs.filter nonSystem).rtake (MAX_TURNS * 2) := by
  rw [trimHistory_eq, h]
  simp [hs]

lemma trimHistory_head_not_system {msgs : List Message} {m : Message}
    (h : msgs.head? = some m) (hs : ¬ m.role = Role.system) :
    trimHistory msgs = (msgs.filter nonSystem).rtake (MAX_TURNS * 2) := by
  rw [trimHistory_eq, h]
  simp [hs]

lemma mem_rtake {α : Type} {l : List α} {n : Nat} {a : α} (h : a ∈ l.rtake n) :
    a ∈ l := by
  unfold List.rtake at h
  exact List.mem_of_mem_drop h

lemma length_rtake_le {α : Type} (l : List α) (n : Nat) : (l.rtake n).length ≤ n := by
  unfold List.rtake
  rw [List.length_drop]
  omega

lemma rtake_of_length_le {α : Type} {l : List α} {n : Nat} (h : l.length ≤ n) :
    l.rtake n = l := by
  unfold List.rtake
  have h0 : l.length - n = 0 := by omega
  rw [h0, List.drop_zero]

/-- Members of the trimmed tail of a filtered list still satisfy the filter. -/
lemma mem_rtake_filter {p : Message → Bool} {l : List Message} {n : Nat} {a : Message}
    (h : a ∈ (l.filter p).rtake n) : p a = true :=
  List.of_mem_filter (mem_rtake h)

/-- A list of non-system messages short enough for the cap is left unchanged
by `trimHistory`. -/
lemma trimHistory_all_nonSystem {l : List Message}
    (h : ∀ a ∈ l, nonSystem a = true) (hlen : l.length ≤ MAX_TURNS * 2) :
    trimHistory l = l := by
  rw [trimHistory_eq]
  have hf : l.filter nonSystem = l := List.filter_eq_self.2 h
  rw [hf, rtake_of_length_le hlen]
  cases l with
  | nil => rfl
  | cons x t =>
    have hx : nonSystem x = true := h x (List.mem_cons_self x t)
    have hx' : ¬ x.role = Role.system := by
      simpa [nonSystem] using hx
    simp [hx']

/-- A system message consed onto a short list of non-system messages is left
unchanged by `trimHistory`. -/
lemma trimHistory_system_cons {m : Message} (hm : m.role = Role.system)
    {R : List Message} (hR : ∀ a ∈ R, nonSystem a = true)
    (hlen : R.length ≤ MAX_TURNS * 2) :
    trimHistory (m :: R) = m :: R := by
  have hhead : (m :: R).head? = some m := rfl
  rw [trimHistory_head_system hhead hm]
  have hmns : nonSystem m = false := by
    simp [nonSystem, hm]
  have hfilter : (m :: R).filter nonSystem = R := by
    rw [List.filter_cons_of_neg (by simp [hmns])]
    exact List.filter_eq_self.2 hR
  rw [hfilter, rtake_of_length_le hlen]

example : trimHistory [] = [] := by decide

/-! ## Claims about the trimmer -/

/-- C1: for every ordered sequence of messages whose first message has role
system, `trimHistory` returns that message unchanged and first, followed by
the most recent `MAX_TURNS * 2 = 40` non-system messages of the input
(`List.rtake` of the non-system subsequence: a suffix, hence in original
relative order with older ones dropped from the front). -/
theorem trimHistory_keeps_leading_system_and_last_forty (msgs : List Message)
    (m : Message) (h : msgs.head? = some m) (hs : m.role = Role.system) :
    MAX_TURNS * 2 = 40 ∧
    trimHistory msgs = m :: (msgs.filter nonSystem).rtake 40 ∧
    (msgs.filter nonSystem).rtake 40 <:+ msgs.filter nonSystem := by
  refine ⟨rfl, ?_, ?_⟩
  · exact trimHistory_head_system h hs
  · unfold List.rtake
    exact List.drop_suffix _ _

theorem trimHistory_keeps_leading_system_and_last_forty_witness :
    ([⟨Role.system, "s"⟩, ⟨Role.user, "a"⟩] : List Message).head? =
        some ⟨Role.system, "s"⟩ ∧
      (MAX_TURNS * 2 = 40 ∧
        trimHistory [⟨Role.system, "s"⟩, ⟨Role.user, "a"⟩] =
          ⟨Role.system, "s"⟩ ::
            (([⟨Role.system, "s"⟩, ⟨Role.user, "a"⟩] : List Message).filter
                nonSystem).rtake 40 ∧
        (([⟨Role.system, "s"⟩, ⟨Role.user, "a"⟩] : List Message).filter
                nonSystem).rtake 40 <:+
          ([⟨Role.system, "s"⟩, ⟨Role.user, "a"⟩] : List Message).filter
            nonSystem) :=
  ⟨rfl, trimHistory_keeps_leading_system_and_last_forty _ _ rfl rfl⟩

/-! ## Basic facts about the store -/

lemma lookup_mem {st : Store} {k : String} {v : List Message}
    (h : st.lookup k = some v) : (k, v) ∈ st := by
  unfold Store.lookup at h
  cases hf : st.find? (fun p => decide (p.1 = k)) with
  | none => rw [hf] at h; cases h
  | some p =>
    rw [hf] at h
    have hp : p ∈ st := List.mem_of_find?_eq_some hf
    have hk : p.1 = k := by
      have := List.find?_some hf
      simpa using this
    have hv : p.2 = v := by simpa using h
    have : p = (k, v) := Prod.ext hk hv
    rwa [this] at hp

lemma hasKey_of_lookup {st : Store} {k : String} {v : List Message}
    (h : st.lookup k = some v) : st.hasKey k = true := by
  rw [Store.hasKey, List.any_eq_true]
  exact ⟨(k, v), lookup_mem h, by simp⟩

lemma lookup_of_hasKey {st : Store} {k : String} (h : st.hasKey k = true) :
    ∃ v, st.lookup k = some v := by
  rw [Store.hasKey, List.any_eq_true] at h
  obtain ⟨p, hp, hk⟩ := h
  unfold Store.lookup
  cases hf : st.find? (fun p => decide (p.1 = k)) with
  | none =>
    rw [List.find?_eq_none] at hf
    exact absurd hk (hf p hp)
  | some q => exact ⟨q.2, rfl⟩

lemma lookup_setKey_self (st : Store) (k : String) (v : List Message) :
    (st.setKey k v).lookup k = some v := by
  unfold Store.setKey
  by_cases h : st.hasKey k = true
  · simp only [h, if_true]
    unfold Store.lookup
    induction st with
    | nil => simp [Store.hasKey] at h
    | cons p t ih =>
      by_cases hp : p.1 = k
      · simp [hp]
      · have ht : Store.hasKey t k = true := by
          unfold Store.hasKey at h ⊢
          simpa [hp] using h
        simp only [List.map_cons, if_neg hp, List.find?_cons, decide_eq_true_eq,
          if_neg hp]
        simpa [List.find?_cons, hp] using ih ht
  · rw [if_neg h]
    unfold Store.lookup
    rw [List.find?_append]
    have hnone : st.find? (fun p => decide (p.1 = k)) = none := by
      rw [List.find?_eq_none]
      intro p hp hk
      apply h
      rw [Store.hasKey, List.any_eq_true]
      exact ⟨p, hp, hk⟩
    rw [hnone]
    simp

lemma mem_setKey {st : Store} {k : String} {v : List Message}
    {p : String × List Message} (h : p ∈ st.setKey k v) :
    p = (k, v) ∨ p ∈ st := by
  unfold Store.setKey at h
  by_cases hk : st.hasKey k = true
  · rw [if_pos hk, List.mem_map] at h
    obtain ⟨q, hq, hfq⟩ := h
    by_cases h1 : q.1 = k
    · left; rw [← hfq]; simp [h1]
    · right; rw [← hfq]; simpa [h1] using hq
  · rw [if_neg hk, List.mem_append] at h
    rcases h with h | h
    · right; exact h
    · left; simpa using h

lemma mem_delKey {st : Store} {k : String} {p : String × List Message}
    (h : p ∈ st.delKey k) : p ∈ st :=
  List.mem_of_mem_filter h

lemma hasKey_delKey_self (st : Store) (k : String) :
    (st.delKey k).hasKey k = false := by
  unfold Store.delKey Store.hasKey
  rw [Bool.eq_false_iff]
  intro hany
  rw [List.any_eq_true] at hany
  obtain ⟨p, hp, hk⟩ := hany
  have := List.of_mem_filter hp
  simp at this hk
  exact this hk

lemma hasKey_setKey_self (st : Store) (k : String) (v : List Message) :
    (st.setKey k v).hasKey k = true :=
  hasKey_of_lookup (lookup_setKey_self st k v)

lemma mem_chatIds_of_hasKey {st : Store} {k : String}
    (h : st.hasKey k = true) : k ∈ st.chatIds := by
  rw [Store.hasKey, List.any_eq_true] at h
  obtain ⟨p, hp, hk⟩ := h
  rw [Store.chatIds, List.mem_map]
  exact ⟨p, hp, by simpa using hk⟩

/-- C6: trimming is idempotent. -/
theorem trimHistory_idempotent (msgs : List Message) :
    trimHistory (trimHistory msgs) = trimHistory msgs := by
  cases h : msgs.head? with
  | none =>
    have hnil : msgs = [] := List.head?_eq_none_iff.1 h
    subst hnil
    rfl
  | some m =>
    by_cases hs : m.role = Role.system
    · rw [trimHistory_head_system h hs]
      exact trimHistory_system_cons hs
        (fun a ha => mem_rtake_filter ha)
        (length_rtake_le _ _)
    · rw [trimHistory_head_not_system h hs]
      exact trimHistory_all_nonSystem
        (fun a ha => mem_rtake_filter ha)
        (length_rtake_le _ _)

/-- C9: `trimHistory` removes every system-role message except a leading
one: every message of the output beyond position 0 has a non-system role,
and the output holds at most one system-role message in total — regardless
of the input's length. -/
theorem trimHistory_drops_nonleading_system (msgs : List Message) :
    ((trimHistory msgs).drop 1).all nonSystem = true ∧
    ((trimHistory msgs).filter (fun m => decide (m.role = Role.system))).length ≤ 1 := by
  rw [trimHistory_eq]
  have hall : ∀ a ∈ (msgs.filter nonSystem).rtake (MAX_TURNS * 2),
      nonSystem a = true := fun a ha => mem_rtake_filter ha
  have hfilterR :
      ((msgs.filter nonSystem).rtake (MAX_TURNS * 2)).filter
        (fun m => decide (m.role = Role.system)) = [] := by
    rw [List.filter_eq_nil_iff]
    intro a ha
    have := hall a ha
    simp only [nonSystem, decide_not] at this
    simpa using this
  cases h : msgs.head? with
  | none =>
    constructor
    · rw [List.all_eq_true]
      intro a ha
      exact hall a (List.mem_of_mem_drop ha)
    · simp [List.filter_append, hfilterR]
  | some m =>
    by_cases hs : m.role = Role.system
    · constructor
      · simp only [hs, if_pos]
        rw [List.all_eq_true]
        intro a ha
        exact hall a (by simpa using ha)
      · simp [hs, List.filter_append, hfilterR]
    · constructor
      · simp only [hs, if_neg, not_false_iff]
        rw [List.all_eq_true]
        intro a ha
        exact hall a (List.mem_of_mem_tail (by simpa using ha))
      · simp [hs, List.filter_append, hfilterR]

example :
    trimHistory [⟨Role.system, "s"⟩, ⟨Role.user, "a"⟩, ⟨Role.assistant, "b"⟩]
      = [⟨Role.system, "s"⟩, ⟨Role.user, "a"⟩, ⟨Role.assistant, "b"⟩] := by decide

example :
    trimHistory [⟨Role.user, "a"⟩, ⟨Role.system, "s"⟩, ⟨Role.assistant, "b"⟩]
      = [⟨Role.user, "a"⟩, ⟨Role.assistant, "b"⟩] := by decide

/-! ## The store invariant -/

lemma goodHist_systemMsg_single : GoodHist [systemMsg] := by
  refine ⟨rfl, rfl, ?_⟩
  simp [nonSystem, systemMsg]

lemma goodHist_trim_concat {l : List Message} (hl : GoodHist l) {x : Message}
    (_hx : nonSystem x = true) : GoodHist (trimHistory (l ++ [x])) := by
  obtain ⟨hhead, htail, hlen⟩ := hl
  cases l with
  | nil => cases hhead
  | cons a t =>
    have ha : a = systemMsg := by simpa using hhead
    subst ha
    have hhead2 : ((systemMsg :: t) ++ [x]).head? = some systemMsg := rfl
    have hrole : systemMsg.role = Role.system := rfl
    rw [trimHistory_head_system hhead2 hrole]
    refine ⟨rfl, ?_, ?_⟩
    · rw [List.all_eq_true]
      intro a2 ha2
      exact mem_rtake_filter (by simpa using ha2)
    · rw [List.filter_cons_of_neg (by simp [nonSystem, systemMsg])]
      rw [List.filter_eq_self.2 (fun a2 ha2 => mem_rtake_filter ha2)]
      exact length_rtake_le _ _

lemma inv_setKey {st : Store} (hst : StoreInv st) {k : String} {v : List Message}
    (hv : GoodHist v) : StoreInv (st.setKey k v) := by
  intro p hp
  rcases mem_setKey hp with h | h
  · rw [h]; exact hv
  · exact hst p h

lemma inv_delKey {st : Store} (hst : StoreInv st) (k : String) : StoreInv (st.delKey k) :=
  fun p hp => hst p (mem_delKey hp)

lemma getOrCreateChat_inv {st : Store} (hst : StoreInv st) (s : String) :
    StoreInv (getOrCreateChat st s).1 ∧ GoodHist (getOrCreateChat st s).2 := by
  unfold getOrCreateChat
  by_cases h : st.hasKey s = true
  · obtain ⟨v, hv⟩ := lookup_of_hasKey h
    simp only [h, if_true, hv, Option.getD_some]
    exact ⟨hst, hst (s, v) (lookup_mem hv)⟩
  · rw [if_neg h]
    simp only [lookup_setKey_self, Option.getD_some]
    exact ⟨inv_setKey hst goodHist_systemMsg_single, goodHist_systemMsg_single⟩

lemma inv_postChat {st : Store} (hst : StoreInv st) (cid msg : JsField)
    (u : UpstreamOutcome) : StoreInv (postChat st cid msg u).1 := by
  unfold postChat
  split
  · exact hst
  split
  · exact hst
  obtain ⟨hst1, hgood⟩ := getOrCreateChat_inv hst cid.str
  have huser : nonSystem ⟨Role.user, msg.str⟩ = true := rfl
  have hst2 : StoreInv (((getOrCreateChat st cid.str).1).setKey cid.str
      (trimHistory ((getOrCreateChat st cid.str).2 ++ [⟨Role.user, msg.str⟩]))) :=
    inv_setKey hst1 (goodHist_trim_concat hgood huser)
  cases u with
  | fail => exact hst2
  | success c =>
    simp only [lookup_setKey_self, Option.getD_some]
    have hassist : nonSystem ⟨Role.assistant, computeReply c⟩ = true := rfl
    exact inv_setKey hst2
      (goodHist_trim_concat (goodHist_trim_concat hgood huser) hassist)

lemma inv_deleteChat {st : Store} (hst : StoreInv st) (cid : String) :
    StoreInv (deleteChat st cid).1 := by
  unfold deleteChat
  split
  · exact hst
  split
  · exact hst
  exact inv_delKey hst cid

/-- Every reachable store satisfies the invariant. -/
lemma reachable_inv {st : Store} (h : Reachable st) : StoreInv st := by
  induction h with
  | init => intro p hp; cases hp
  | step _ hstep ih =>
    cases hstep with
    | post cid msg u => exact inv_postChat ih cid msg u
    | del cid => exact inv_deleteChat ih cid

/-! ## Claims about reachable store states -/

/-- C2: in every reachable state of the chat store, every chat with a
non-empty message sequence begins with the fixed system-prompt message,
that message is the only system-role one (everything after position 0 is
non-system), and trimming the stored history keeps that message first
(it is never removed by trimming). -/
theorem reachable_chat_begins_with_system {st : Store} (h : Reachable st) :
    ∀ p ∈ st, p.2 ≠ [] →
      p.2.head? = some systemMsg ∧
      (p.2.drop 1).all nonSystem = true ∧
      (trimHistory p.2).head? = some systemMsg := by
  intro p hp _
  obtain ⟨hhead, htail, hlen⟩ := reachable_inv h p hp
  refine ⟨hhead, htail, ?_⟩
  rw [trimHistory_head_system hhead rfl]
  rfl

theorem reachable_chat_begins_with_system_witness :
    ([systemMsg, ⟨Role.user, "hi"⟩, ⟨Role.assistant, "hello"⟩] :
        List Message).head? = some systemMsg ∧
      (([systemMsg, ⟨Role.user, "hi"⟩, ⟨Role.assistant, "hello"⟩] :
          List Message).drop 1).all nonSystem = true ∧
      (trimHistory [systemMsg, ⟨Role.user, "hi"⟩, ⟨Role.assistant, "hello"⟩]).head?
        = some systemMsg := by
  have hreach : Reachable ((postChat [] (.strv "c1") (.strv "hi")
      (.success (some "hello"))).1) :=
    Reachable.step Reachable.init (Step.post [] _ _ _)
  exact reachable_chat_begins_with_system hreach
    ("c1", [systemMsg, ⟨Role.user, "hi"⟩, ⟨Role.assistant, "hello"⟩])
    (by decide) (by decide)

/-- C3: in every reachable state of the chat store, every stored chat holds
at most `MAX_TURNS * 2 = 40` messages whose role is not system. -/
theorem reachable_nonsystem_cap {st : Store} (h : Reachable st) :
    ∀ p ∈ st, MAX_TURNS * 2 = 40 ∧ (p.2.filter nonSystem).length ≤ 40 := by
  intro p hp
  have hlen := (reachable_inv h p hp).2.2
  exact ⟨rfl, by simpa [MAX_TURNS] using hlen⟩

theorem reachable_nonsystem_cap_witness :
    MAX_TURNS * 2 = 40 ∧
      (([systemMsg, ⟨Role.user, "hi"⟩, ⟨Role.assistant, "hello"⟩] :
          List Message).filter nonSystem).length ≤ 40 := by
  have hreach : Reachable ((postChat [] (.strv "c1") (.strv "hi")
      (.success (some "hello"))).1) :=
    Reachable.step Reachable.init (Step.post [] _ _ _)
  exact reachable_nonsystem_cap hreach
    ("c1", [systemMsg, ⟨Role.user, "hi"⟩, ⟨Role.assistant, "hello"⟩])
    (by decide)

/-! ## Facts about the POST handler on valid input -/

/-- Appending a non-system message and trimming leaves that message last. -/
lemma trimHistory_concat_getLast {l : List Message} {x : Message}
    (hx : nonSystem x = true) :
    (trimHistory (l ++ [x])).getLast? = some x := by
  rw [trimHistory_eq]
  have hfilter : (l ++ [x]).filter nonSystem = l.filter nonSystem ++ [x] := by
    rw [List.filter_append]
    simp [hx]
  rw [hfilter]
  have h40 : MAX_TURNS * 2 = 39 + 1 := rfl
  rw [h40, List.rtake_concat_succ, List.getLast?_append, List.getLast?_concat]
  rfl

/-- The POST handler on valid fields with a failing upstream call:
the first trim's store and a 500 response. -/
lemma postChat_valid_fail (st : Store) (s m : String) (hs : s ≠ "") (hm : m ≠ "") :
    postChat st (.strv s) (.strv m) .fail =
      (((getOrCreateChat st s).1).setKey s
          (trimHistory ((getOrCreateChat st s).2 ++ [⟨Role.user, m⟩])),
        ⟨500, .error "Server error"⟩) := by
  have hc1 : ¬ (¬ (JsField.strv s).truthy ∨ ¬ (JsField.strv s).isString) := by
    simp [JsField.truthy, JsField.isString, hs]
  have hc2 : ¬ (¬ (JsField.strv m).truthy ∨ ¬ (JsField.strv m).isString) := by
    simp [JsField.truthy, JsField.isString, hm]
  unfold postChat
  rw [if_neg hc1, if_neg hc2]
  rfl

/-- The POST handler on valid fields with a successful upstream call:
both trims applied and a 200 response carrying the computed reply. -/
lemma postChat_valid_success (st : Store) (s m : String) (hs : s ≠ "")
    (hm : m ≠ "") (content : Option String) :
    postChat st (.strv s) (.strv m) (.success content) =
      (let st2 := ((getOrCreateChat st s).1).setKey s
          (trimHistory ((getOrCreateChat st s).2 ++ [⟨Role.user, m⟩]));
        (st2.setKey s (trimHistory (((st2.lookup s).getD []) ++
            [⟨Role.assistant, computeReply content⟩])),
          ⟨200, .reply (computeReply content)⟩)) := by
  have hc1 : ¬ (¬ (JsField.strv s).truthy ∨ ¬ (JsField.strv s).isString) := by
    simp [JsField.truthy, JsField.isString, hs]
  have hc2 : ¬ (¬ (JsField.strv m).truthy ∨ ¬ (JsField.strv m).isString) := by
    simp [JsField.truthy, JsField.isString, hm]
  unfold postChat
  rw [if_neg hc1, if_neg hc2]
  rfl

/-! ## Claims about the HTTP handlers -/

/-- C4: on valid `chatId` and `message`, if the upstream completion call
fails, the response is `500 {"error": "Server error"}`, the user's message
remains stored as the last message of the chat's history (no rollback),
and the chat remains listed in `GET /api/chats`. -/
theorem postChat_upstream_failure (st : Store) (s m : String)
    (hs : s ≠ "") (hm : m ≠ "") :
    (postChat st (.strv s) (.strv m) .fail).2 =
        ⟨500, .error "Server error"⟩ ∧
      (∃ l, (postChat st (.strv s) (.strv m) .fail).1.lookup s = some l ∧
        l.getLast? = some ⟨Role.user, m⟩) ∧
      s ∈ (postChat st (.strv s) (.strv m) .fail).1.chatIds := by
  rw [postChat_valid_fail st s m hs hm]
  refine ⟨rfl, ?_, ?_⟩
  · exact ⟨_, lookup_setKey_self _ _ _, trimHistory_concat_getLast rfl⟩
  · exact mem_chatIds_of_hasKey (hasKey_setKey_self _ _ _)

theorem postChat_upstream_failure_witness :
    (postChat [] (.strv "c1") (.strv "hi") .fail).2 =
        ⟨500, .error "Server error"⟩ ∧
      (∃ l, (postChat [] (.strv "c1") (.strv "hi") .fail).1.lookup "c1" = some l ∧
        l.getLast? = some ⟨Role.user, "hi"⟩) ∧
      "c1" ∈ (postChat [] (.strv "c1") (.strv "hi") .fail).1.chatIds :=
  postChat_upstream_failure [] "c1" "hi" (by decide) (by decide)

/-- C5: a POST request whose `chatId` or `message` field is missing or not
a string is rejected with 400 and the matching "required" error before any
mutation: the store is returned unchanged, whatever the upstream outcome
would have been. -/
theorem postChat_validation_no_mutation (st : Store) (cid msg : JsField)
    (u : UpstreamOutcome) :
    ((cid = JsField.undef ∨ cid.isString = false) →
      postChat st cid msg u = (st, ⟨400, .error "chatId is required"⟩)) ∧
    (cid.truthy = true → cid.isString = true →
      (msg = JsField.undef ∨ msg.isString = false) →
      postChat st cid msg u = (st, ⟨400, .error "message is required"⟩)) := by
  constructor
  · intro h
    have hcond : ¬ cid.truthy ∨ ¬ cid.isString := by
      rcases h with h | h
      · subst h; exact Or.inl (by simp [JsField.truthy])
      · exact Or.inr (by simp [h])
    unfold postChat
    rw [if_pos hcond]
  · intro ht hstr h
    have hcond1 : ¬ (¬ cid.truthy ∨ ¬ cid.isString) := by
      simp [ht, hstr]
    have hcond2 : ¬ msg.truthy ∨ ¬ msg.isString := by
      rcases h with h | h
      · subst h; exact Or.inl (by simp [JsField.truthy])
      · exact Or.inr (by simp [h])
    unfold postChat
    rw [if_neg hcond1, if_pos hcond2]

theorem postChat_validation_no_mutation_witness :
    postChat [] JsField.undef JsField.undef .fail =
        ([], ⟨400, .error "chatId is required"⟩) ∧
      postChat [] (JsField.strv "c1") JsField.undef .fail =
        ([], ⟨400, .error "message is required"⟩) :=
  ⟨(postChat_validation_no_mutation [] JsField.undef JsField.undef .fail).1
      (Or.inl rfl),
    (postChat_validation_no_mutation [] (JsField.strv "c1") JsField.undef
        .fail).2 (by decide) (by decide) (Or.inl rfl)⟩

/-- C10: a present, string-typed but empty `chatId` or `message` is
rejected with the same "required" error as an absent field, with the store
unchanged: JavaScript's falsiness test `!field` catches the empty string. -/
theorem postChat_empty_string_rejected (st : Store) (msg : JsField)
    (u : UpstreamOutcome) :
    postChat st (.strv "") msg u = (st, ⟨400, .error "chatId is required"⟩) ∧
    (∀ s : String, s ≠ "" →
      postChat st (.strv s) (.strv "") u =
        (st, ⟨400, .error "message is required"⟩)) := by
  constructor
  · unfold postChat
    rw [if_pos (Or.inl (by simp [JsField.truthy]))]
  · intro s hs
    have hcond1 : ¬ (¬ (JsField.strv s).truthy ∨ ¬ (JsField.strv s).isString) := by
      simp [JsField.truthy, JsField.isString, hs]
    unfold postChat
    rw [if_neg hcond1, if_pos (Or.inl (by simp [JsField.truthy]))]

theorem postChat_empty_string_rejected_witness :
    postChat [] (.strv "") (.strv "x") .fail =
        ([], ⟨400, .error "chatId is required"⟩) ∧
      postChat [] (.strv "c1") (.strv "") .fail =
        ([], ⟨400, .error "message is required"⟩) :=
  ⟨(postChat_empty_string_rejected [] (.strv "x") .fail).1,
    (postChat_empty_string_rejected [] (.strv "x") .fail).2 "c1" (by decide)⟩

/-- C7: deleting an existing chat responds `200 {"ok": true}` and removes
it; deleting an unknown chat responds `404 {"error": "Chat not found"}`
and leaves the store unchanged, so a second delete of the same id
yields 404. -/
theorem deleteChat_spec (st : Store) (cid : String) (h : cid ≠ "") :
    (st.hasKey cid = true →
      deleteChat st cid = (st.delKey cid, ⟨200, .okTrue⟩) ∧
      (st.delKey cid).hasKey cid = false ∧
      (deleteChat (st.delKey cid) cid).2 = ⟨404, .error "Chat not found"⟩) ∧
    (st.hasKey cid = false →
      deleteChat st cid = (st, ⟨404, .error "Chat not found"⟩)) := by
  constructor
  · intro hk
    have hremoved := hasKey_delKey_self st cid
    refine ⟨?_, hremoved, ?_⟩
    · unfold deleteChat
      rw [if_neg h, if_neg (by simp [hk])]
    · unfold deleteChat
      rw [if_neg h, if_pos (by simp [hremoved])]
  · intro hk
    unfold deleteChat
    rw [if_neg h, if_pos (by simp [hk])]

theorem deleteChat_spec_witness :
    deleteChat [("c1", [systemMsg])] "c1" =
        (Store.delKey [("c1", [systemMsg])] "c1", ⟨200, .okTrue⟩) ∧
      (Store.delKey [("c1", [systemMsg])] "c1").hasKey "c1" = false ∧
      (deleteChat (Store.delKey [("c1", [systemMsg])] "c1") "c1").2 =
        ⟨404, .error "Chat not found"⟩ :=
  (deleteChat_spec [("c1", [systemMsg])] "c1" (by decide)).1 (by decide)

/-- C8: on valid fields, when the upstream call succeeds but its reply
content is absent, empty, or whitespace-only, the handler substitutes the
fixed fallback string: it responds 200 with the fallback as the reply and
stores the fallback as the last (assistant) message. -/
theorem postChat_empty_reply_fallback (st : Store) (s m : String)
    (hs : s ≠ "") (hm : m ≠ "") (content : Option String)
    (hc : content = none ∨ ∃ c, content = some c ∧ trimString c = "") :
    (postChat st (.strv s) (.strv m) (.success content)).2 =
        ⟨200, .reply FALLBACK⟩ ∧
      ∃ l, (postChat st (.strv s) (.strv m) (.success content)).1.lookup s
          = some l ∧
        l.getLast? = some ⟨Role.assistant, FALLBACK⟩ := by
  have hrep : computeReply content = FALLBACK := by
    rcases hc with h | ⟨c, hc1, hc2⟩
    · rw [h]; rfl
    · rw [hc1]
      simp [computeReply, hc2]
  rw [postChat_valid_success st s m hs hm content]
  simp only [hrep]
  exact ⟨trivial, _, lookup_setKey_self _ _ _, trimHistory_concat_getLast rfl⟩

theorem postChat_empty_reply_fallback_witness :
    (postChat [] (.strv "c1") (.strv "hi") (.success (some "  "))).2 =
        ⟨200, .reply FALLBACK⟩ ∧
      ∃ l, (postChat [] (.strv "c1") (.strv "hi")
            (.success (some "  "))).1.lookup "c1" = some l ∧
        l.getLast? = some ⟨Role.assistant, FALLBACK⟩ :=
  postChat_empty_reply_fallback [] "c1" "hi" (by decide) (by decide)
    (some "  ") (Or.inr ⟨"  ", rfl, by decide⟩)
